import Mathlib

/-!
Shallow embedding of `github.com/hamidoujand/reverse-proxy` (package
`proxy`, file `proxy.go`) together with models of the parts of the Go
standard library / `golang.org/x/net/http2` that the package calls and
whose behaviour the specification claims depend on.

The embedding is per-request functional: a handler invocation is a pure
function from the proxy value, an upstream oracle and the inbound request
to the updated proxy value and the ordered list of operations performed on
the response sink (`http.ResponseWriter`).  The background flush goroutine
of `ServeHTTP` (proxy.go lines 90-101) only calls `Flush` and touches no
header, status or body data, so it is not part of the sink-operation
alphabet.
-/

namespace ReverseProxy

/-! ### Go `http.Header`

`http.Header` is a `map[string][]string`.  We model the map as an
association list with (at most) one binding per key; `set` models
`Header.Set`, which replaces the whole value slice of the key with the
one-element slice `[v]`.  All header keys written by the source
(`"X-Forwarded-For"`, `"Trailer"`) and all keys of a parsed Go request or
response are already in canonical MIME form, so `Set`'s key
canonicalisation is the identity on every key this model touches and is
not modelled. -/
abbrev Header := List (String × List String)

namespace HeaderOps

/-- Lookup of the full value slice of a key, as `h[k]` reads it (`[]` when the
key is absent, like a `nil` slice in Go). -/
def getValues (h : Header) (k : String) : List String :=
  ((h.find? (fun q => q.1 == k)).map Prod.snd).getD []

/-- Model of `http.Header.Set`: replace the binding of `k` by the one-element
slice `[v]`. -/
def set (h : Header) (k v : String) : Header :=
  h.filter (fun q => q.1 != k) ++ [(k, [v])]

end HeaderOps

/-! ### Go `net.SplitHostPort`

Faithful model of `net.SplitHostPort` from the Go standard library
(`net/ipsock.go`), operating on the character list of the address.  Error
values render as Go's `AddrError.Error()`, i.e.
`"address " + addr + ": " + reason`. -/

/-- Index of the last occurrence of `c` in `cs` (Go's `last`). -/
def lastIdxOf (cs : List Char) (c : Char) : Option Nat :=
  (cs.reverse.findIdx? (fun d => d == c)).map (fun i => cs.length - 1 - i)

/-- Model of `net.SplitHostPort`: splits `"host:port"`, `"[host]:port"`
into host and port. -/
def splitHostPort (hostPort : String) : Except String (String × String) :=
  let cs := hostPort.toList
  let addrErr := fun (why : String) =>
    (Except.error ("address " ++ hostPort ++ ": " ++ why) : Except String (String × String))
  match lastIdxOf cs ':' with
  | none => addrErr "missing port in address"
  | some i =>
    let inner : Except String (List Char × Nat × Nat) :=
      if cs.head? == some '[' then
        match cs.findIdx? (fun d => d == ']') with
        | none => Except.error "missing \x27]\x27 in address"
        | some e =>
          if e + 1 == cs.length then Except.error "missing port in address"
          else if e + 1 == i then Except.ok ((cs.drop 1).take (e - 1), 1, e + 1)
          else if cs.get? (e + 1) == some ':' then Except.error "too many colons in address"
          else Except.error "missing port in address"
      else
        let host := cs.take i
        if host.contains ':' then Except.error "too many colons in address"
        else Except.ok (host, 0, 0)
    match inner with
    | .error why => addrErr why
    | .ok (host, j, k) =>
      if (cs.drop j).contains '[' then addrErr "unexpected \x27[\x27 in address"
      else if (cs.drop k).contains ']' then addrErr "unexpected \x27]\x27 in address"
      else Except.ok (String.mk host, String.mk (cs.drop (i + 1)))

/-! ### Go `net/url.Parse`

Model of `net/url.Parse` (`net/url/url.go`) restricted to the features the
repository exercises: control-character rejection, fragment and query
splitting, scheme recognition (`getScheme`), opaque rootless-path URLs,
authority parsing with userinfo stripping and port validation, and plain
relative references.  Percent-escape validation, host character-set
validation, IPv6 zones and `ForceQuery` are outside the modelled fragment;
none of the claims depend on them. -/

structure GoURL where
  scheme : String
  opaquePart : String
  host : String
  path : String
  rawQuery : String
  fragment : String
deriving Repr, DecidableEq

/-- Model of `u.IsAbs()`: a URL is absolute when it has a scheme. -/
def GoURL.isAbs (u : GoURL) : Bool := u.scheme != ""

/-- Go's `stringContainsCTLByte`: any byte below space or DEL. -/
def containsCTLByte (s : String) : Bool :=
  s.toList.any (fun c => c.toNat < 0x20 || c.toNat == 0x7f)

/-- Model of `strings.Cut` on a character list: text before the first `c` and text
after it (all of `cs` and `[]` when `c` is absent). -/
def cutAt (cs : List Char) (c : Char) : List Char × List Char :=
  match cs.findIdx? (fun d => d == c) with
  | some i => (cs.take i, cs.drop (i + 1))
  | none => (cs, [])

/-- Go's `getScheme`: recognise a leading `scheme:` where the scheme
starts with an ASCII letter and continues with letters, digits, `+`, `-`,
`.`.  A leading `:` is the `missing protocol scheme` error; anything else
means the URL has no scheme and is parsed as a relative reference. -/
def schemeSplit (raw : List Char) : Except String (String × List Char) :=
  match raw with
  | [] => Except.ok ("", raw)
  | c :: _ =>
    if c.isDigit || c == '+' || c == '-' || c == '.' then Except.ok ("", raw)
    else if c == ':' then Except.error "missing protocol scheme"
    else
      match raw.findIdx? (fun d => !(d.isAlpha || d.isDigit || d == '+' || d == '-' || d == '.')) with
      | none => Except.ok ("", raw)
      | some i =>
        if raw.get? i == some ':' then
          Except.ok (String.mk ((raw.take i).map Char.toLower), raw.drop (i + 1))
        else Except.ok ("", raw)

/-- Go's `validOptionalPort`: empty, or `:` followed by decimal digits. -/
def validOptionalPort (port : List Char) : Bool :=
  match port with
  | [] => true
  | c :: rest => c == ':' && rest.all (fun d => d.isDigit)

/-- Go's `parseHost` restricted to the modelled fragment: bracketed hosts
must contain `]`, and the text after the last colon (after `]` for
bracketed hosts) must be a valid optional port. -/
def parseHost (host : List Char) : Except String String :=
  if host.head? == some '[' then
    match lastIdxOf host ']' with
    | none => Except.error "missing \x27]\x27 in host"
    | some i =>
      let colonPort := host.drop (i + 1)
      if validOptionalPort colonPort then Except.ok (String.mk host)
      else Except.error ("invalid port " ++ String.mk colonPort ++ " after host")
  else
    match lastIdxOf host ':' with
    | none => Except.ok (String.mk host)
    | some i =>
      let colonPort := host.drop i
      if validOptionalPort colonPort then Except.ok (String.mk host)
      else Except.error ("invalid port " ++ String.mk colonPort ++ " after host")

/-- Go's `parseAuthority`: userinfo before the last `@` is split off (its
validation is outside the modelled fragment), the remainder is the host. -/
def parseAuthority (authority : List Char) : Except String String :=
  match lastIdxOf authority '@' with
  | none => parseHost authority
  | some i => parseHost (authority.drop (i + 1))

/-- Model of `net/url.Parse`. -/
def urlParse (rawURL : String) : Except String GoURL :=
  if containsCTLByte rawURL then
    Except.error "net/url: invalid control character in URL"
  else
    let (beforeFrag, frag) := cutAt rawURL.toList '#'
    match schemeSplit beforeFrag with
    | .error e => Except.error e
    | .ok (scheme, afterScheme) =>
      let (rest, query) := cutAt afterScheme '?'
      if scheme != "" && rest.head? != some '/' then
        Except.ok { scheme := scheme, opaquePart := String.mk rest, host := "", path := "",
                    rawQuery := String.mk query, fragment := String.mk frag }
      else if scheme == "" && rest.head? != some '/' && ((cutAt rest '/').1.contains ':') then
        Except.error "first path segment in URL cannot contain colon"
      else if (scheme != "" || !(rest.take 3 == ['/', '/', '/'])) && rest.take 2 == ['/', '/'] then
        let afterSlashes := rest.drop 2
        let (authority, path) :=
          match afterSlashes.findIdx? (fun d => d == '/') with
          | some i => (afterSlashes.take i, afterSlashes.drop i)
          | none => (afterSlashes, ([] : List Char))
        match parseAuthority authority with
        | .error e => Except.error e
        | .ok host =>
          Except.ok { scheme := scheme, opaquePart := "", host := host, path := String.mk path,
                      rawQuery := String.mk query, fragment := String.mk frag }
      else
        Except.ok { scheme := scheme, opaquePart := "", host := "", path := String.mk rest,
                    rawQuery := String.mk query, fragment := String.mk frag }

/-! ### Requests, responses, and the transport -/

/-- The fields of `*http.Request` that `ServeHTTP` reads or writes. -/
structure Request where
  method : String
  host : String
  url : GoURL
  requestURI : String
  remoteAddr : String
  protoMajor : Nat
  header : Header
  body : String
deriving Repr, DecidableEq

/-- The fields of `*http.Response` that `ServeHTTP` reads.  `trailer`
holds the trailer map in its fully-received state: Go creates
`resp.Trailer` with the declared keys before the body is read and fills
the values in place once the body reaches EOF, so the key set read at
proxy.go line 105 and the key/value pairs read at line 117 come from this
one map. -/
structure Response where
  statusCode : Nat
  header : Header
  trailer : Header
  body : String
deriving Repr, DecidableEq

/-- The upstream as seen through `p.Client.Do`: either a transport error
(rendered as the error's text) or a response. -/
abbrev Upstream := Request → Except String Response

/-- Model of `golang.org/x/net/http2.ConfigureTransport` applied to the
proxy's shared `*http.Transport`.  Its documented contract: it enables
HTTP/2 on the transport and "returns an error if t1 has already been
HTTP/2-enabled"; the error comes from the panic recovered inside
`registerHTTPSProtocol`, whose text is produced by
`http.Transport.RegisterProtocol`. -/
def http2ConfigureTransport (alreadyConfigured : Bool) : Except String Bool :=
  if alreadyConfigured then Except.error "protocol https already registered"
  else Except.ok true

/-! ### The proxy -/

/-- Model of `proxy.Proxy`: the parsed upstream URL plus the outbound client.  Of
the client we track the single mutable bit `ServeHTTP` interacts with:
whether `http2.ConfigureTransport` has already been applied to its
transport. -/
structure Proxy where
  host : GoURL
  http2Configured : Bool
deriving Repr, DecidableEq

/-- Model of `proxy.New` (proxy.go lines 22-47): parse the upstream URL, wrapping
a parse failure as `"parse url: %w"`; the freshly built client's
transport has not been HTTP/2-configured. -/
def New (host : String) : Except String Proxy :=
  match urlParse host with
  | .error e => Except.error ("parse url: " ++ e)
  | .ok u => Except.ok { host := u, http2Configured := false }

/-- One operation on the response sink (`http.ResponseWriter`), plus the
outbound call through the client, in program order. -/
inductive Event where
  | setHeader (k v : String)
  | writeStatus (code : Nat)
  | writeBody (chunk : String)
  | outboundCall (req : Request)
deriving Repr, DecidableEq

/-- proxy.go lines 52-55: retarget the request at the configured upstream
and clear the request-line URI field. -/
def rewriteRequest (p : Proxy) (r : Request) : Request :=
  { r with host := p.host.host
         , url := { r.url with host := p.host.host, scheme := p.host.scheme }
         , requestURI := "" }

/-- proxy.go lines 52-64: the request as handed to `p.Client.Do` —
retargeted, request-line URI cleared, and `X-Forwarded-For` set (Set, not
Add) to the caller's IP. -/
def forwardedRequest (p : Proxy) (r : Request) (ip : String) : Request :=
  let r := rewriteRequest p r
  { r with header := HeaderOps.set r.header "X-Forwarded-For" ip }

/-- proxy.go lines 66-73: on an HTTP/2 inbound request, configure the
shared transport for HTTP/2; otherwise leave the client untouched. -/
def configStep (p : Proxy) (protoMajor : Nat) : Except String Proxy :=
  if protoMajor == 2 then
    (http2ConfigureTransport p.http2Configured).map
      (fun b => { p with http2Configured := b })
  else Except.ok p

/-- proxy.go lines 84-88: `w.Header().Set(header, val)` for every value
of every upstream response header, in slice order. -/
def headerCopyEvents (respHeader : Header) : List Event :=
  respHeader.flatMap (fun q => q.2.map (fun v => Event.setHeader q.1 v))

/-- proxy.go lines 117-121: `w.Header().Set(key, val)` for every value of
every received trailer, in slice order. -/
def trailerFillEvents (trailer : Header) : List Event :=
  trailer.flatMap (fun q => q.2.map (fun v => Event.setHeader q.1 v))

/-- Model of `Proxy.ServeHTTP` (proxy.go lines 50-125) as a pure function from the
proxy value, the upstream oracle and the inbound request to the updated
proxy value and the ordered trace of sink operations and outbound calls.
Error paths reproduce `w.WriteHeader(500)` followed by
`fmt.Fprintln(w, err)` (the error text plus a newline). -/
def serveHTTP (p : Proxy) (upstream : Upstream) (r : Request) :
    Proxy × List Event :=
  match splitHostPort r.remoteAddr with
  | .error err => (p, [Event.writeStatus 500, Event.writeBody (err ++ "\n")])
  | .ok (ip, _port) =>
    let r := forwardedRequest p r ip
    match configStep p r.protoMajor with
    | .error err => (p, [Event.writeStatus 500, Event.writeBody (err ++ "\n")])
    | .ok p =>
      match upstream r with
      | .error err =>
        (p, [Event.outboundCall r, Event.writeStatus 500, Event.writeBody (err ++ "\n")])
      | .ok resp =>
        (p, Event.outboundCall r
              :: headerCopyEvents resp.header
              ++ [Event.setHeader "Trailer"
                    (String.intercalate "," (resp.trailer.map Prod.fst)),
                  Event.writeStatus resp.statusCode,
                  Event.writeBody resp.body]
              ++ trailerFillEvents resp.trailer)

/-! ### Sink semantics

What the caller observes when the trace is replayed against an
`http.ResponseWriter`: `Header()` is a mutable map; the first
`WriteHeader` freezes the map's current contents as the response headers
(later `WriteHeader` calls are superfluous no-ops); body writes append;
header mutations after `WriteHeader` do not change the sent response
headers (they are only ever seen as trailers). -/

structure SinkState where
  headerMap : Header
  sentHeader : Header
  status : Option Nat
  body : String
deriving Repr, DecidableEq

def SinkState.init : SinkState := ⟨[], [], none, ""⟩

def stepSink (s : SinkState) : Event → SinkState
  | Event.setHeader k v => { s with headerMap := HeaderOps.set s.headerMap k v }
  | Event.writeStatus c =>
    match s.status with
    | some _ => s
    | none => { s with status := some c, sentHeader := s.headerMap }
  | Event.writeBody b => { s with body := s.body ++ b }
  | Event.outboundCall _ => s

def runSink (evs : List Event) : SinkState :=
  evs.foldl stepSink SinkState.init

/-- The relayed response of one exchange, as the caller's recorder sees
it. -/
def relaySink (p : Proxy) (upstream : Upstream) (r : Request) : SinkState :=
  runSink (serveHTTP p upstream r).2

/-- Folding an association list into a sink header by `Set`-ting every
value of every entry in order — the effect of the copy loop at proxy.go
lines 84-88 (and of the fill loop at lines 117-121) on the header map. -/
def applyHeader (h : Header) (entries : Header) : Header :=
  entries.foldl (fun a q => q.2.foldl (fun b v => HeaderOps.set b q.1 v) a) h

/-! ### General lemmas about the header map and the sink -/

theorem find?_filter_ne_none (h : Header) (k : String) :
    (h.filter (fun q => q.1 != k)).find? (fun q => q.1 == k) = none := by
  rw [List.find?_eq_none]
  intro x hx
  have := List.of_mem_filter hx
  simp only [bne_iff_ne, ne_eq, decide_eq_true_eq] at this
  simp [this]

theorem find?_filter_ne (h : Header) {k k' : String} (hne : k' ≠ k) :
    (h.filter (fun q => q.1 != k)).find? (fun q => q.1 == k') =
      h.find? (fun q => q.1 == k') := by
  induction h with
  | nil => rfl
  | cons a t ih =>
    have h2 : (k == k') = false := by
      simp only [beq_eq_false_iff_ne, ne_eq]
      exact Ne.symm hne
    by_cases hak : a.1 = k
    · simp [List.filter_cons, List.find?_cons, hak, h2, ih]
    · by_cases hak' : a.1 = k'
      · simp [List.filter_cons, List.find?_cons, hak, hak', hne]
      · simp [List.filter_cons, List.find?_cons, hak, hak', ih]

theorem getValues_set_self (h : Header) (k v : String) :
    HeaderOps.getValues (HeaderOps.set h k v) k = [v] := by
  unfold HeaderOps.getValues HeaderOps.set
  rw [List.find?_append, find?_filter_ne_none]
  simp [List.find?_cons]

theorem getValues_set_other (h : Header) {k k' : String} (hne : k' ≠ k) (v : String) :
    HeaderOps.getValues (HeaderOps.set h k v) k' = HeaderOps.getValues h k' := by
  have h2 : (k == k') = false := by
    simp only [beq_eq_false_iff_ne, ne_eq]
    exact Ne.symm hne
  unfold HeaderOps.getValues HeaderOps.set
  rw [List.find?_append, find?_filter_ne h hne]
  simp [List.find?_cons, h2]

/-- Setting the same key repeatedly leaves the last value. -/
theorem setFold_self {k : String} :
    ∀ (vs : List String) (h : Header) (v : String), vs.getLast? = some v →
      HeaderOps.getValues (vs.foldl (fun b w => HeaderOps.set b k w) h) k = [v]
  | [], _, _, hlast => by simp at hlast
  | [w], h, v, hlast => by
    simp only [List.getLast?_singleton, Option.some.injEq] at hlast
    subst hlast
    simp [getValues_set_self]
  | w :: w2 :: t, h, v, hlast => by
    rw [List.foldl_cons]
    exact setFold_self (w2 :: t) _ v (by rw [List.getLast?_cons_cons] at hlast; exact hlast)

theorem setFold_other {k k' : String} (hne : k' ≠ k) :
    ∀ (vs : List String) (h : Header),
      HeaderOps.getValues (vs.foldl (fun b w => HeaderOps.set b k w) h) k' =
        HeaderOps.getValues h k'
  | [], _ => rfl
  | w :: t, h => by
    rw [List.foldl_cons, setFold_other hne t, getValues_set_other h hne]

theorem applyHeader_not_mem {k : String} :
    ∀ (entries : Header) (h : Header), k ∉ entries.map Prod.fst →
      HeaderOps.getValues (applyHeader h entries) k = HeaderOps.getValues h k
  | [], _, _ => rfl
  | q :: t, h, hk => by
    have hq : k ≠ q.1 := fun he => hk (by simp [he])
    have ht : k ∉ t.map Prod.fst := fun he => hk (by simp [he])
    rw [applyHeader, List.foldl_cons, ← applyHeader, applyHeader_not_mem t _ ht,
      setFold_other hq]

/-- The copy loop gives each upstream header key the **last** of its
values (map keys are distinct, hence the `Nodup` hypothesis). -/
theorem applyHeader_mem_last {k : String} {vs : List String} {v : String} :
    ∀ (entries : Header) (h : Header), (entries.map Prod.fst).Nodup →
      (k, vs) ∈ entries → vs.getLast? = some v →
      HeaderOps.getValues (applyHeader h entries) k = [v]
  | [], _, _, hmem, _ => by simp at hmem
  | q :: t, h, hnd, hmem, hlast => by
    rw [List.map_cons, List.nodup_cons] at hnd
    rcases List.mem_cons.mp hmem with hhd | htl
    · have hk : k ∉ t.map Prod.fst := by
        rw [← hhd] at hnd
        exact hnd.1
      rw [applyHeader, List.foldl_cons, ← applyHeader, applyHeader_not_mem t _ hk, ← hhd]
      exact setFold_self vs h v hlast
    · have hq : k ≠ q.1 := by
        intro he
        exact hnd.1 (he ▸ (List.mem_map.mpr ⟨(k, vs), htl, rfl⟩))
      rw [applyHeader, List.foldl_cons, ← applyHeader]
      exact applyHeader_mem_last t _ hnd.2 htl hlast

/-- Replaying the events of a header-copy loop only updates the header
map of the sink. -/
theorem foldl_setHeaderEvents (vs : List String) (k : String) (s : SinkState) :
    (vs.map (fun v => Event.setHeader k v)).foldl stepSink s =
      { s with headerMap := vs.foldl (fun b v => HeaderOps.set b k v) s.headerMap } := by
  induction vs generalizing s with
  | nil => rfl
  | cons w t ih => rw [List.map_cons, List.foldl_cons, List.foldl_cons, ih]; rfl

theorem foldl_copyEvents (entries : Header) (s : SinkState) :
    (headerCopyEvents entries).foldl stepSink s =
      { s with headerMap := applyHeader s.headerMap entries } := by
  induction entries generalizing s with
  | nil => rfl
  | cons q t ih =>
    rw [headerCopyEvents, List.flatMap_cons, List.foldl_append, ← headerCopyEvents,
      foldl_setHeaderEvents, ih]
    rfl

theorem trailerFillEvents_eq (entries : Header) :
    trailerFillEvents entries = headerCopyEvents entries := rfl

theorem forwardedRequest_protoMajor (p : Proxy) (r : Request) (ip : String) :
    (forwardedRequest p r ip).protoMajor = r.protoMajor := rfl

/-! ### The shapes `ServeHTTP` can take -/

/-- Malformed remote address (proxy.go lines 57-63): status 500, the
error text as body, nothing else, and the proxy value untouched. -/
theorem serve_split_error {p : Proxy} {upstream : Upstream} {r : Request} {e : String}
    (hsplit : splitHostPort r.remoteAddr = Except.error e) :
    serveHTTP p upstream r = (p, [Event.writeStatus 500, Event.writeBody (e ++ "\n")]) := by
  unfold serveHTTP
  rw [hsplit]

/-- Failed HTTP/2 transport configuration (proxy.go lines 66-73). -/
theorem serve_cfg_error {p : Proxy} {upstream : Upstream} {r : Request}
    {ip port e : String}
    (hsplit : splitHostPort r.remoteAddr = Except.ok (ip, port))
    (hcfg : configStep p r.protoMajor = Except.error e) :
    serveHTTP p upstream r = (p, [Event.writeStatus 500, Event.writeBody (e ++ "\n")]) := by
  unfold serveHTTP
  rw [hsplit]
  dsimp only
  rw [forwardedRequest_protoMajor, hcfg]

/-- Failed outbound call (proxy.go lines 76-82): exactly one outbound
attempt, then status 500 and the error text as body. -/
theorem serve_do_error {p p1 : Proxy} {upstream : Upstream} {r : Request}
    {ip port e : String}
    (hsplit : splitHostPort r.remoteAddr = Except.ok (ip, port))
    (hcfg : configStep p r.protoMajor = Except.ok p1)
    (hup : upstream (forwardedRequest p r ip) = Except.error e) :
    serveHTTP p upstream r =
      (p1, [Event.outboundCall (forwardedRequest p r ip),
            Event.writeStatus 500, Event.writeBody (e ++ "\n")]) := by
  unfold serveHTTP
  rw [hsplit]
  dsimp only
  rw [forwardedRequest_protoMajor, hcfg]
  dsimp only
  rw [hup]

/-- The full relay trace (proxy.go lines 84-121): the outbound call, the
header-copy writes, the `Trailer` announcement, the status write, the
body copy, and the trailer-value writes, in that order. -/
theorem serve_trace {p p1 : Proxy} {upstream : Upstream} {r : Request}
    {ip port : String} {resp : Response}
    (hsplit : splitHostPort r.remoteAddr = Except.ok (ip, port))
    (hcfg : configStep p r.protoMajor = Except.ok p1)
    (hup : upstream (forwardedRequest p r ip) = Except.ok resp) :
    serveHTTP p upstream r =
      (p1, Event.outboundCall (forwardedRequest p r ip)
             :: headerCopyEvents resp.header
             ++ [Event.setHeader "Trailer"
                   (String.intercalate "," (resp.trailer.map Prod.fst)),
                 Event.writeStatus resp.statusCode,
                 Event.writeBody resp.body]
             ++ trailerFillEvents resp.trailer) := by
  unfold serveHTTP
  rw [hsplit]
  dsimp only
  rw [forwardedRequest_protoMajor, hcfg]
  dsimp only
  rw [hup]

/-- What the caller's recorder holds after a successful relay: the sent
response headers are the copied upstream headers overlaid with the
`Trailer` announcement; the status and body are the upstream's; the final
header map additionally holds the filled trailer values. -/
theorem relay_sink_eq {p p1 : Proxy} {upstream : Upstream} {r : Request}
    {ip port : String} {resp : Response}
    (hsplit : splitHostPort r.remoteAddr = Except.ok (ip, port))
    (hcfg : configStep p r.protoMajor = Except.ok p1)
    (hup : upstream (forwardedRequest p r ip) = Except.ok resp) :
    relaySink p upstream r =
      { headerMap := applyHeader
          (HeaderOps.set (applyHeader [] resp.header) "Trailer"
            (String.intercalate "," (resp.trailer.map Prod.fst))) resp.trailer
      , sentHeader := HeaderOps.set (applyHeader [] resp.header) "Trailer"
          (String.intercalate "," (resp.trailer.map Prod.fst))
      , status := some resp.statusCode
      , body := resp.body } := by
  rw [relaySink, serve_trace hsplit hcfg hup]
  dsimp only
  rw [runSink]
  simp only [List.foldl_append, List.foldl_cons, List.foldl_nil, trailerFillEvents_eq,
    foldl_copyEvents]
  simp [stepSink, SinkState.init]

/-- The transport-configuration step never touches the upstream identity. -/
theorem configStep_host {p p1 : Proxy} {m : Nat}
    (h : configStep p m = Except.ok p1) : p1.host = p.host := by
  unfold configStep http2ConfigureTransport at h
  split at h
  · split at h
    · simp [Except.map] at h
    · simp only [Except.map, Except.ok.injEq] at h
      rw [← h]
  · injection h with h
    rw [← h]

/-- Every event of a copy loop is a header write. -/
theorem mem_headerCopyEvents {e : Event} {entries : Header}
    (h : e ∈ headerCopyEvents entries) : ∃ k v, e = Event.setHeader k v := by
  unfold headerCopyEvents at h
  rw [List.mem_flatMap] at h
  obtain ⟨q, _, hq⟩ := h
  rw [List.mem_map] at hq
  obtain ⟨v, _, he⟩ := hq
  exact ⟨q.1, v, he.symm⟩

/-- The only outbound call a handler invocation can make is the one at
proxy.go line 76, with the rewritten, stamped request, and it presupposes
a well-formed remote address. -/
theorem outboundCall_mem_eq {p : Proxy} {upstream : Upstream} {r req : Request}
    (hmem : Event.outboundCall req ∈ (serveHTTP p upstream r).2) :
    ∃ ip port, splitHostPort r.remoteAddr = Except.ok (ip, port) ∧
      req = forwardedRequest p r ip := by
  cases hsplit : splitHostPort r.remoteAddr with
  | error e =>
    rw [serve_split_error hsplit] at hmem
    simp at hmem
  | ok ipport =>
    obtain ⟨ip, port⟩ := ipport
    refine ⟨ip, port, rfl, ?_⟩
    cases hcfg : configStep p r.protoMajor with
    | error e =>
      rw [serve_cfg_error hsplit hcfg] at hmem
      simp at hmem
    | ok p1 =>
      cases hup : upstream (forwardedRequest p r ip) with
      | error e =>
        rw [serve_do_error hsplit hcfg hup] at hmem
        simp only [List.mem_cons, List.not_mem_nil, or_false] at hmem
        rcases hmem with h | h | h
        · injection h
        · exact Event.noConfusion h
        · exact Event.noConfusion h
      | ok resp =>
        rw [serve_trace hsplit hcfg hup] at hmem
        simp only [List.mem_append, List.mem_cons] at hmem
        rcases hmem with ((h | h) | h) | h
        · injection h
        · obtain ⟨k, v, he⟩ := mem_headerCopyEvents h
          exact Event.noConfusion he
        · simp only [List.mem_cons, List.not_mem_nil, or_false] at h
          rcases h with h | h | h <;> exact Event.noConfusion h
        · rw [trailerFillEvents_eq] at h
          obtain ⟨k, v, he⟩ := mem_headerCopyEvents h
          exact Event.noConfusion he

/-! ### The claims -/

/-- C2 (confirmed): within every exchange that reaches the relay phase
(well-formed remote address, transport configuration succeeded, upstream
responded), the sink sees exactly, in this order: the upstream header
copy, then the `Trailer` announcement, then the status-code write, then
the body copy, then the trailer-value fill. -/
theorem relay_operations_ordered {p p1 : Proxy} {upstream : Upstream} {r : Request}
    {ip port : String} {resp : Response}
    (hsplit : splitHostPort r.remoteAddr = Except.ok (ip, port))
    (hcfg : configStep p r.protoMajor = Except.ok p1)
    (hup : upstream (forwardedRequest p r ip) = Except.ok resp) :
    (serveHTTP p upstream r).2 =
      Event.outboundCall (forwardedRequest p r ip)
        :: headerCopyEvents resp.header
        ++ [Event.setHeader "Trailer"
              (String.intercalate "," (resp.trailer.map Prod.fst)),
            Event.writeStatus resp.statusCode,
            Event.writeBody resp.body]
        ++ trailerFillEvents resp.trailer := by
  rw [serve_trace hsplit hcfg hup]

/-- C3 (confirmed): every header key of the upstream response reaches the
relayed response headed with the **last** of its values — the copy loop
at proxy.go lines 84-88 uses `Set`, so each value overwrites the previous
one.  A Go map has distinct keys (the `Nodup` hypothesis), and a parsed
Go response never carries the `Trailer` key in `resp.Header`
(`net/http` moves it into `resp.Trailer`), hence the membership
hypothesis. -/
theorem relayed_header_last_value_wins {p p1 : Proxy} {upstream : Upstream}
    {r : Request} {ip port : String} {resp : Response}
    (hsplit : splitHostPort r.remoteAddr = Except.ok (ip, port))
    (hcfg : configStep p r.protoMajor = Except.ok p1)
    (hup : upstream (forwardedRequest p r ip) = Except.ok resp)
    (hnd : (resp.header.map Prod.fst).Nodup)
    (hnt : "Trailer" ∉ resp.header.map Prod.fst)
    {k : String} {vs : List String} (hmem : (k, vs) ∈ resp.header)
    {v : String} (hlast : vs.getLast? = some v) :
    HeaderOps.getValues (relaySink p upstream r).sentHeader k = [v] := by
  rw [relay_sink_eq hsplit hcfg hup]
  have hk : k ≠ "Trailer" := fun he => hnt (he ▸ List.mem_map.mpr ⟨(k, vs), hmem, rfl⟩)
  dsimp only
  rw [getValues_set_other _ hk, applyHeader_mem_last resp.header [] hnd hmem hlast]

/-- C4 (confirmed): on every relay-path exchange — whatever the size of
the trailer set, including zero — the response headers sent with the
status line carry a `Trailer` header whose value is the comma-joined list
of the upstream's declared trailer names; `sentHeader` is by construction
the header map at the moment the status code is written, so the
announcement happens before the status write. -/
theorem trailer_always_announced_before_status {p p1 : Proxy} {upstream : Upstream}
    {r : Request} {ip port : String} {resp : Response}
    (hsplit : splitHostPort r.remoteAddr = Except.ok (ip, port))
    (hcfg : configStep p r.protoMajor = Except.ok p1)
    (hup : upstream (forwardedRequest p r ip) = Except.ok resp) :
    HeaderOps.getValues (relaySink p upstream r).sentHeader "Trailer" =
      [String.intercalate "," (resp.trailer.map Prod.fst)]
    ∧ (relaySink p upstream r).status = some resp.statusCode := by
  rw [relay_sink_eq hsplit hcfg hup]
  exact ⟨getValues_set_self _ _ _, rfl⟩

/-- C5 (confirmed): any request the handler sends upstream targets the
configured upstream host and scheme and carries an empty request-line URI
field (proxy.go lines 52-55). -/
theorem outbound_target_rewritten (p : Proxy) (upstream : Upstream) (r : Request) :
    ∀ req : Request, Event.outboundCall req ∈ (serveHTTP p upstream r).2 →
      req.host = p.host.host ∧ req.url.host = p.host.host ∧
      req.url.scheme = p.host.scheme ∧ req.requestURI = "" := by
  intro req hmem
  obtain ⟨ip, port, _, rfl⟩ := outboundCall_mem_eq hmem
  exact ⟨rfl, rfl, rfl, rfl⟩

/-- C6 (confirmed): when the remote address is well-formed, the outbound
request's `X-Forwarded-For` is exactly the one-element slice holding the
caller's IP with the port stripped — `Set`, not `Add`, so any inbound
value of the header is overwritten (proxy.go lines 57-64). -/
theorem forwarded_for_overwritten_with_ip {p : Proxy} {upstream : Upstream}
    {r : Request} {ip port : String}
    (hsplit : splitHostPort r.remoteAddr = Except.ok (ip, port)) :
    ∀ req : Request, Event.outboundCall req ∈ (serveHTTP p upstream r).2 →
      HeaderOps.getValues req.header "X-Forwarded-For" = [ip] := by
  intro req hmem
  obtain ⟨ip2, port2, hs2, rfl⟩ := outboundCall_mem_eq hmem
  rw [hsplit] at hs2
  injection hs2 with hs2
  injection hs2 with h1 h2
  subst h1
  exact getValues_set_self _ _ _

/-- C7 (confirmed): on a malformed remote address the handler writes
status 500 and the plain-text error description, touches nothing else and
leaves the proxy value unchanged (no outbound call at all); on a failed
outbound call it makes exactly one outbound attempt, writes status 500
and the plain-text error description, and the upstream identity is
unchanged.  Either way the handler returns — the error is rendered into
this request's sink and aborts nothing else. -/
theorem per_request_errors_terminal (p : Proxy) (upstream : Upstream) (r : Request) :
    (∀ e, splitHostPort r.remoteAddr = Except.error e →
      serveHTTP p upstream r = (p, [Event.writeStatus 500, Event.writeBody (e ++ "\n")]))
  ∧ (∀ ip port p1 e, splitHostPort r.remoteAddr = Except.ok (ip, port) →
      configStep p r.protoMajor = Except.ok p1 →
      upstream (forwardedRequest p r ip) = Except.error e →
      serveHTTP p upstream r =
        (p1, [Event.outboundCall (forwardedRequest p r ip),
              Event.writeStatus 500, Event.writeBody (e ++ "\n")])
      ∧ p1.host = p.host) := by
  refine ⟨fun e h => serve_split_error h, fun ip port p1 e h1 h2 h3 => ?_⟩
  exact ⟨serve_do_error h1 h2 h3, configStep_host h2⟩

/-- C10 (confirmed): the forwarded request is the inbound request with
only its target host, scheme, request-line URI field and forwarded-for
header changed; method, body, protocol, remote address, URL path and
query, and every other header key pass through unchanged. -/
theorem forwarded_request_frame {p : Proxy} {upstream : Upstream} {r : Request}
    {ip port : String}
    (hsplit : splitHostPort r.remoteAddr = Except.ok (ip, port)) :
    ∀ req : Request, Event.outboundCall req ∈ (serveHTTP p upstream r).2 →
      req.method = r.method ∧ req.body = r.body ∧
      req.protoMajor = r.protoMajor ∧ req.remoteAddr = r.remoteAddr ∧
      req.url.path = r.url.path ∧ req.url.rawQuery = r.url.rawQuery ∧
      (∀ k, k ≠ "X-Forwarded-For" →
        HeaderOps.getValues req.header k = HeaderOps.getValues r.header k) ∧
      HeaderOps.getValues req.header "X-Forwarded-For" = [ip] ∧
      req.host = p.host.host ∧ req.url.scheme = p.host.scheme ∧
      req.url.host = p.host.host ∧ req.requestURI = "" := by
  intro req hmem
  obtain ⟨ip2, port2, hs2, rfl⟩ := outboundCall_mem_eq hmem
  rw [hsplit] at hs2
  injection hs2 with hs2
  injection hs2 with h1 h2
  subst h1
  refine ⟨rfl, rfl, rfl, rfl, rfl, rfl, fun k hk => ?_, getValues_set_self _ _ _,
    rfl, rfl, rfl, rfl⟩
  exact getValues_set_other _ hk _

/-! ### Concrete exchanges used by the witnesses and counterexamples -/

/-- The upstream of the repository's own `main.go`: `http://127.0.0.1:9000`. -/
def demoUpstreamURL : GoURL :=
  { scheme := "http", opaquePart := "", host := "127.0.0.1:9000", path := "",
    rawQuery := "", fragment := "" }

def demoProxy : Proxy := { host := demoUpstreamURL, http2Configured := false }

def demoInURL : GoURL :=
  { scheme := "", opaquePart := "", host := "", path := "/", rawQuery := "", fragment := "" }

/-- An ordinary HTTP/1.1 inbound request. -/
def demoReq : Request :=
  { method := "GET", host := "example.com", url := demoInURL, requestURI := "/",
    remoteAddr := "1.2.3.4:5678", protoMajor := 1,
    header := [("Test-Header-1", ["1"])], body := "" }

/-- The same request arriving over HTTP/2. -/
def http2Req : Request := { demoReq with protoMajor := 2 }

/-- An inbound request whose remote address lacks the port. -/
def badAddrReq : Request := { demoReq with remoteAddr := "nocolon" }

/-- An inbound request that already carries an `X-Forwarded-For`. -/
def spoofedReq : Request :=
  { demoReq with header := [("X-Forwarded-For", ["9.9.9.9"])] }

/-- The upstream response of the repository's `TestNewProxyHandler`. -/
def demoResp : Response :=
  { statusCode := 201, header := [("Response-Header-1", ["1"])],
    trailer := [("X-Trailer", ["X-Value"])], body := "Hello World!" }

def demoUp : Upstream := fun _ => Except.ok demoResp

/-- An upstream response that declares no trailers. -/
def noTrailerResp : Response :=
  { statusCode := 200, header := [("Response-Header-1", ["1"])], trailer := [], body := "ok" }

def noTrailerUp : Upstream := fun _ => Except.ok noTrailerResp

/-- An upstream response with two values for one header key. -/
def multiValResp : Response :=
  { statusCode := 200, header := [("X", ["1", "2"])], trailer := [], body := "ok" }

def multiValUp : Upstream := fun _ => Except.ok multiValResp

/-- An upstream that the client cannot reach. -/
def failUp : Upstream := fun _ => Except.error "connection refused"

/-! ### Remaining claims -/

/-- C1 (code bug): the trailer relay of `ServeHTTP` does **not** branch
on the negotiated protocol version — proxy.go lines 104-121 run
unconditionally, so the HTTP/1.1 announce-then-fill pattern is applied to
an HTTP/2 exchange as well: on an inbound request with `ProtoMajor = 2`
the `Trailer` announcement header is part of the response headers sent
with the status line, and the trailer values are filled into the header
map only after the body.  The only protocol branch (lines 66-73)
configures the outbound transport. -/
theorem http2_exchange_uses_announce_then_fill :
    http2Req.protoMajor = 2
  ∧ HeaderOps.getValues (relaySink demoProxy demoUp http2Req).sentHeader "Trailer"
      = ["X-Trailer"]
  ∧ HeaderOps.getValues (relaySink demoProxy demoUp http2Req).sentHeader "X-Trailer" = []
  ∧ HeaderOps.getValues (relaySink demoProxy demoUp http2Req).headerMap "X-Trailer"
      = ["X-Value"]
  ∧ (relaySink demoProxy demoUp http2Req).body = "Hello World!" := by
  refine ⟨rfl, ?_, ?_, ?_, ?_⟩ <;> rfl

/-- C8 (code bug): repeated identical HTTP/2 requests against the same
`Proxy` do **not** produce identical relayed responses even though the
upstream never varies: the first exchange configures the shared transport
and relays the upstream's 201, while the second exchange's
`http2.ConfigureTransport` call fails (the transport is already
HTTP/2-enabled) and the caller gets a 500 with the registration error as
body. -/
theorem repeated_http2_requests_differ :
    (relaySink demoProxy demoUp http2Req).status = some 201
  ∧ (relaySink demoProxy demoUp http2Req).body = "Hello World!"
  ∧ (relaySink (serveHTTP demoProxy demoUp http2Req).1 demoUp http2Req).status = some 500
  ∧ (relaySink (serveHTTP demoProxy demoUp http2Req).1 demoUp http2Req).body
      = "protocol https already registered\n"
  ∧ relaySink (serveHTTP demoProxy demoUp http2Req).1 demoUp http2Req
      ≠ relaySink demoProxy demoUp http2Req := by
  refine ⟨rfl, rfl, rfl, rfl, by decide⟩

/-- C9 counterexample: `New` does **not** fail on every string that is
not a valid absolute URL.  Go's `url.Parse` accepts the relative
reference `"abc"` (no scheme, no host), so construction succeeds with an
upstream target whose scheme and host are empty. -/
theorem new_accepts_relative_url :
    New "abc" =
      Except.ok { host := { scheme := "", opaquePart := "", host := "", path := "abc",
                            rawQuery := "", fragment := "" }, http2Configured := false }
  ∧ GoURL.isAbs { scheme := "", opaquePart := "", host := "", path := "abc",
                  rawQuery := "", fragment := "" } = false := ⟨rfl, rfl⟩

/-- C9 (amended): construction fails, with the parse error wrapped as
`"parse url: ..."`, exactly when the Go URL parser rejects the string
(which accepts relative, non-absolute URLs); on success the proxy holds
the parsed URL's scheme and host, and no request handling ever mutates
the stored upstream URL. -/
theorem new_contract (s : String) :
    (∀ u, urlParse s = Except.ok u →
      New s = Except.ok { host := u, http2Configured := false })
  ∧ (∀ e, urlParse s = Except.error e → New s = Except.error ("parse url: " ++ e))
  ∧ (∀ (p : Proxy) (upstream : Upstream) (r : Request),
      (serveHTTP p upstream r).1.host = p.host) := by
  refine ⟨fun u hu => ?_, fun e he => ?_, fun p upstream r => ?_⟩
  · unfold New
    rw [hu]
  · unfold New
    rw [he]
  · cases hsplit : splitHostPort r.remoteAddr with
    | error e => rw [serve_split_error hsplit]
    | ok ipport =>
      obtain ⟨ip, port⟩ := ipport
      cases hcfg : configStep p r.protoMajor with
      | error e => rw [serve_cfg_error hsplit hcfg]
      | ok p1 =>
        cases hup : upstream (forwardedRequest p r ip) with
        | error e =>
          rw [serve_do_error hsplit hcfg hup]
          exact configStep_host hcfg
        | ok resp =>
          rw [serve_trace hsplit hcfg hup]
          exact configStep_host hcfg

/-! ### Witnesses -/

/-- C2 witness: the repository's round-trip exchange, evaluated. -/
theorem relay_operations_ordered_witness :
    splitHostPort demoReq.remoteAddr = Except.ok ("1.2.3.4", "5678")
  ∧ (serveHTTP demoProxy demoUp demoReq).2 =
      Event.outboundCall (forwardedRequest demoProxy demoReq "1.2.3.4")
        :: headerCopyEvents demoResp.header
        ++ [Event.setHeader "Trailer"
              (String.intercalate "," (demoResp.trailer.map Prod.fst)),
            Event.writeStatus demoResp.statusCode,
            Event.writeBody demoResp.body]
        ++ trailerFillEvents demoResp.trailer :=
  ⟨rfl, relay_operations_ordered rfl rfl rfl⟩

/-- C3 witness: upstream sends `X: 1` then `X: 2`; the relayed response
has `X: 2` alone. -/
theorem relayed_header_last_value_wins_witness :
    HeaderOps.getValues (relaySink demoProxy multiValUp demoReq).sentHeader "X" = ["2"] :=
  @relayed_header_last_value_wins demoProxy demoProxy multiValUp demoReq "1.2.3.4" "5678"
    multiValResp rfl rfl rfl (by decide) (by decide) "X" ["1", "2"] (by decide) "2" rfl

/-- C4 witness: with zero declared trailers the announcement is still
emitted, as an empty `Trailer` header, before the status write. -/
theorem trailer_always_announced_before_status_witness :
    HeaderOps.getValues (relaySink demoProxy noTrailerUp demoReq).sentHeader "Trailer"
      = [String.intercalate "," (noTrailerResp.trailer.map Prod.fst)]
  ∧ (relaySink demoProxy noTrailerUp demoReq).status = some noTrailerResp.statusCode :=
  trailer_always_announced_before_status rfl rfl rfl

/-- C5 witness: the forwarded request of the demo exchange targets the
configured upstream and has no request-line URI. -/
theorem outbound_target_rewritten_witness :
    (forwardedRequest demoProxy demoReq "1.2.3.4").host = demoProxy.host.host
  ∧ (forwardedRequest demoProxy demoReq "1.2.3.4").url.host = demoProxy.host.host
  ∧ (forwardedRequest demoProxy demoReq "1.2.3.4").url.scheme = demoProxy.host.scheme
  ∧ (forwardedRequest demoProxy demoReq "1.2.3.4").requestURI = "" :=
  outbound_target_rewritten demoProxy demoUp demoReq
    (forwardedRequest demoProxy demoReq "1.2.3.4") (by decide)

/-- C6 witness: an inbound request carrying a spoofed `X-Forwarded-For`
is forwarded with exactly the caller's IP in that header. -/
theorem forwarded_for_overwritten_with_ip_witness :
    splitHostPort spoofedReq.remoteAddr = Except.ok ("1.2.3.4", "5678")
  ∧ HeaderOps.getValues (forwardedRequest demoProxy spoofedReq "1.2.3.4").header
      "X-Forwarded-For" = ["1.2.3.4"] :=
  ⟨rfl, @forwarded_for_overwritten_with_ip demoProxy demoUp spoofedReq "1.2.3.4" "5678" rfl
    (forwardedRequest demoProxy spoofedReq "1.2.3.4") (by decide)⟩

/-- C7 witness: both error paths evaluated — the malformed remote
address and the unreachable upstream each yield a 500 with the plain-text
error description, with at most one outbound attempt. -/
theorem per_request_errors_terminal_witness :
    serveHTTP demoProxy demoUp badAddrReq =
      (demoProxy, [Event.writeStatus 500,
                   Event.writeBody "address nocolon: missing port in address\n"])
  ∧ serveHTTP demoProxy failUp demoReq =
      (demoProxy, [Event.outboundCall (forwardedRequest demoProxy demoReq "1.2.3.4"),
                   Event.writeStatus 500, Event.writeBody "connection refused\n"])
  ∧ demoProxy.host = demoProxy.host :=
  ⟨(per_request_errors_terminal demoProxy demoUp badAddrReq).1
      "address nocolon: missing port in address" rfl,
   ((per_request_errors_terminal demoProxy failUp demoReq).2
      "1.2.3.4" "5678" demoProxy "connection refused" rfl rfl rfl).1,
   ((per_request_errors_terminal demoProxy failUp demoReq).2
      "1.2.3.4" "5678" demoProxy "connection refused" rfl rfl rfl).2⟩

/-- C9 witness: an absolute upstream URL constructs the expected target,
a malformed one fails with the wrapped parse error, and handling a
request leaves the stored upstream URL unchanged. -/
theorem new_contract_witness :
    New "http://127.0.0.1:9000" =
      Except.ok { host := demoUpstreamURL, http2Configured := false }
  ∧ New "://x" = Except.error ("parse url: " ++ "missing protocol scheme")
  ∧ (serveHTTP demoProxy demoUp demoReq).1.host = demoProxy.host :=
  ⟨(new_contract "http://127.0.0.1:9000").1 demoUpstreamURL rfl,
   (new_contract "://x").2.1 "missing protocol scheme" rfl,
   (new_contract "x").2.2 demoProxy demoUp demoReq⟩

/-- C10 witness: the demo exchange's forwarded request differs from the
inbound request only in target host, scheme, request-line URI and
forwarded-for header. -/
theorem forwarded_request_frame_witness :
    (forwardedRequest demoProxy demoReq "1.2.3.4").method = demoReq.method
  ∧ (forwardedRequest demoProxy demoReq "1.2.3.4").body = demoReq.body
  ∧ HeaderOps.getValues (forwardedRequest demoProxy demoReq "1.2.3.4").header
      "Test-Header-1" = HeaderOps.getValues demoReq.header "Test-Header-1" :=
  have h := @forwarded_request_frame demoProxy demoUp demoReq "1.2.3.4" "5678" rfl
    (forwardedRequest demoProxy demoReq "1.2.3.4") (by decide)
  ⟨h.1, h.2.1, h.2.2.2.2.2.2.1 "Test-Header-1" (by decide)⟩

end ReverseProxy
